import Mathlib

/-!
Verification of the quill offline signing tool against its specification.

The development shallowly embeds the Rust sources:
  * `src/commands/sign.rs` — query/update decision, envelope timing, and
    `get_effective_canister_id` (management-canister target resolution);
  * `src/commands/neuron.rs` — staking subaccount derivation
    (`convert_name_to_memo`, `get_neuron_subaccount`, `neuron_name_validator`);
  * `src/commands/transfer.rs` — amount resolution (`get_icpts_from_args`
    together with the clap-level option conflicts of `TransferOpts`);
  * `src/lib/identity.rs` — identity loading (`Identity::load`).

Machine integers are embedded as `Nat` with explicit bounds where overflow
matters; byte strings are `List Nat` with every element below 256; fallible
Rust code returns `Except String`; external library collaborators
(Candid decoding, SHA-256, PEM parsers) are passed in as function parameters,
so theorems quantifying over them express exactly which inputs the code
inspects.
-/

deriving instance DecidableEq for Except

/-! ## Bytes and principals -/

/-- UTF-8 encoding of a single character, as `Nat` byte values.
Embeds what Rust's `str::as_bytes` exposes per character. -/
def charUtf8Bytes (c : Char) : List Nat :=
  let n := c.toNat
  if n < 0x80 then [n]
  else if n < 0x800 then [0xC0 + n / 0x40, 0x80 + n % 0x40]
  else if n < 0x10000 then [0xE0 + n / 0x1000, 0x80 + n / 0x40 % 0x40, 0x80 + n % 0x40]
  else [0xF0 + n / 0x40000, 0x80 + n / 0x1000 % 0x40, 0x80 + n / 0x40 % 0x40, 0x80 + n % 0x40]

/-- The UTF-8 bytes of a string (Rust `str::as_bytes`). -/
def strBytes (s : String) : List Nat :=
  (s.data.map charUtf8Bytes).flatten

/-- A principal, embedded as its raw byte representation
(`Principal::as_slice` in `ic_types`). Equality is byte equality. -/
abbrev Principal' : Type := List Nat

/-- The management canister's principal (`Principal::management_canister()`,
textual form aaaaa-aa) has the empty byte representation. -/
def managementCanisterPrincipal : Principal' := ([] : List Nat)

/-! ## Management-canister methods (`ic_utils::interfaces::management_canister::MgmtMethod`)

The `MgmtMethod` enum and its strum-derived snake_case `from_str` / `as_ref`
conversions are an external collaborator of `sign.rs`; they are embedded
concretely because `get_effective_canister_id` dispatches on them. -/

inductive MgmtMethod where
  | CreateCanister
  | InstallCode
  | UninstallCode
  | StartCanister
  | StopCanister
  | CanisterStatus
  | DeleteCanister
  | DepositCycles
  | RawRand
  | ProvisionalCreateCanisterWithCycles
  | ProvisionalTopUpCanister
  | UpdateSettings
deriving DecidableEq, Repr

/-- Embeds `MgmtMethod::from_str` (strum `EnumString`, snake_case). -/
def MgmtMethod.fromStr (s : String) : Option MgmtMethod :=
  if s = "create_canister" then some .CreateCanister
  else if s = "install_code" then some .InstallCode
  else if s = "uninstall_code" then some .UninstallCode
  else if s = "start_canister" then some .StartCanister
  else if s = "stop_canister" then some .StopCanister
  else if s = "canister_status" then some .CanisterStatus
  else if s = "delete_canister" then some .DeleteCanister
  else if s = "deposit_cycles" then some .DepositCycles
  else if s = "raw_rand" then some .RawRand
  else if s = "provisional_create_canister_with_cycles" then
    some .ProvisionalCreateCanisterWithCycles
  else if s = "provisional_top_up_canister" then some .ProvisionalTopUpCanister
  else if s = "update_settings" then some .UpdateSettings
  else none

/-- Embeds `MgmtMethod::as_ref` (strum `AsRefStr`, snake_case). -/
def MgmtMethod.asRefStr : MgmtMethod → String
  | .CreateCanister => "create_canister"
  | .InstallCode => "install_code"
  | .UninstallCode => "uninstall_code"
  | .StartCanister => "start_canister"
  | .StopCanister => "stop_canister"
  | .CanisterStatus => "canister_status"
  | .DeleteCanister => "delete_canister"
  | .DepositCycles => "deposit_cycles"
  | .RawRand => "raw_rand"
  | .ProvisionalCreateCanisterWithCycles => "provisional_create_canister_with_cycles"
  | .ProvisionalTopUpCanister => "provisional_top_up_canister"
  | .UpdateSettings => "update_settings"

/-! ## Candid argument records decoded by `get_effective_canister_id` -/

/-- Install mode of `ic_utils`' `CanisterInstall`. -/
inductive InstallMode where
  | install
  | reinstall
  | upgrade
deriving DecidableEq, Repr

/-- Embeds `ic_utils::interfaces::management_canister::builders::CanisterInstall`. -/
structure CanisterInstall where
  mode : InstallMode
  canister_id : Principal'
  wasm_module : List Nat
  arg : List Nat

/-- Embeds `ic_utils::interfaces::management_canister::builders::CanisterSettings`. -/
structure CanisterSettings where
  controller : Option Principal'
  compute_allocation : Option Nat
  memory_allocation : Option Nat
  freezing_threshold : Option Nat

/-- Embeds the local `In` record of the `UpdateSettings` arm in
`get_effective_canister_id`: a Candid record with `canister_id` and `settings`. -/
structure UpdateSettingsIn where
  canister_id : Principal'
  settings : CanisterSettings

/-- Embeds the local `In` record of the lifecycle arm in
`get_effective_canister_id`: a Candid record with only `canister_id`. -/
structure CanisterIdIn where
  canister_id : Principal'

/-- The Candid decoding collaborator (`candid::Decode!`), one decoder per
record type that `get_effective_canister_id` decodes. Passed as a parameter:
theorems quantify over it, so decoder-independence of a result proves that
the code never decoded the argument. -/
structure CandidDecoders where
  decodeCanisterInstall : List Nat → Except String CanisterInstall
  decodeUpdateSettingsIn : List Nat → Except String UpdateSettingsIn
  decodeCanisterIdIn : List Nat → Except String CanisterIdIn

/-- The error text of the `CreateCanister | RawRand` arm in
`get_effective_canister_id`. -/
def mgmtInterCanisterOnlyMsg (m : String) : String :=
  m ++ " can only be called via an inter-canister call. Try calling this without `--no-wallet`."

/-- Embeds `get_effective_canister_id` from `src/commands/sign.rs`. -/
def get_effective_canister_id (cd : CandidDecoders) (is_management_canister : Bool)
    (method_name : String) (arg_value : List Nat) (canister_id : Principal') :
    Except String Principal' :=
  if is_management_canister then
    match MgmtMethod.fromStr method_name with
    | none =>
      .error ("Attempted to call an unsupported management canister method: " ++ method_name)
    | some m =>
      match m with
      | .CreateCanister | .RawRand => .error (mgmtInterCanisterOnlyMsg m.asRefStr)
      | .InstallCode =>
        match cd.decodeCanisterInstall arg_value with
        | .ok install_args => .ok install_args.canister_id
        | .error e => .error e
      | .UpdateSettings =>
        match cd.decodeUpdateSettingsIn arg_value with
        | .ok in_args => .ok in_args.canister_id
        | .error e => .error e
      | .StartCanister | .StopCanister | .CanisterStatus | .DeleteCanister
      | .DepositCycles | .UninstallCode | .ProvisionalTopUpCanister =>
        match cd.decodeCanisterIdIn arg_value with
        | .ok in_args => .ok in_args.canister_id
        | .error e => .error e
      | .ProvisionalCreateCanisterWithCycles =>
        .ok managementCanisterPrincipal
  else
    .ok canister_id

/-! ## Query/update decision in `sign::exec` -/

/-- Embeds the `is_query` computation of `sign::exec`:
`is_query_method` is `Some (f.is_query())` when the optional interface
description statically knows the method's kind, `None` otherwise; `query` and
`update` are the caller's flags. The `Some false`/`query` case embeds the
`bail!` as an error. -/
def sign_is_query (method_name : String) (is_query_method : Option Bool)
    (query update : Bool) : Except String Bool :=
  match is_query_method with
  | some true => .ok (!update)
  | some false =>
    if query then
      .error ("Invalid method call: " ++ method_name ++ " is not a query method.")
    else
      .ok false
  | none => .ok query

/-! ## Staking subaccount derivation (`src/commands/neuron.rs`) -/

/-- Big-endian base-256 read of a byte list
(Rust `u64::from_be_bytes` on an 8-byte array). -/
def u64FromBeBytes (l : List Nat) : Nat :=
  l.foldl (fun a b => a * 256 + b) 0

/-- Big-endian bytes of a number, `k` bytes long (low-order truncation).
`natToBeBytes 8 n` embeds Rust `u64::to_be_bytes` for `n < 2^64`. -/
def natToBeBytes : Nat → Nat → List Nat
  | 0, _ => []
  | k + 1, n => natToBeBytes k (n / 256) ++ [n % 256]

/-- Embeds `convert_name_to_memo`: left-pad the name's bytes with zero bytes
to length 8, then read the array as a big-endian u64. The Rust
`copy_from_slice` into a `[u8; 8]` panics when the padded length is not 8
(names longer than 8 bytes); the panic is embedded as `none`. -/
def convert_name_to_memo (name : String) : Option Nat :=
  let bytes := strBytes name
  let padded := List.replicate (8 - bytes.length) 0 ++ bytes
  if padded.length = 8 then some (u64FromBeBytes padded) else none

/-- Embeds `get_neuron_subaccount`: SHA-256 over the domain-tag byte 0x0c,
the ASCII bytes of "neuron-stake", the controller principal's bytes, and the
8-byte big-endian nonce. The SHA-256 collaborator (openssl) is a parameter. -/
def get_neuron_subaccount (sha256 : List Nat → List Nat) (controller : Principal')
    (nonce : Nat) : List Nat :=
  sha256 ([0x0c] ++ strBytes "neuron-stake" ++ controller ++ natToBeBytes 8 nonce)

/-- Embeds `neuron_name_validator`: a name whose byte length exceeds 8 is
rejected. -/
def neuron_name_validator (name : String) : Except String Unit :=
  if (strBytes name).length > 8 then
    .error "The neuron name must be 8 character or less"
  else
    .ok ()

/-! ### Byte-level lemmas -/

theorem char_toNat_lt_uniCount (c : Char) : c.toNat < 0x110000 := by
  have h := c.valid
  unfold UInt32.isValidChar Nat.isValidChar at h
  rcases h with h | ⟨h1, h2⟩
  · have : c.val.toNat < 55296 := h
    simp [Char.toNat]
    omega
  · have : c.val.toNat < 1114112 := h2
    simp [Char.toNat]
    omega

theorem charUtf8Bytes_lt (c : Char) : ∀ b ∈ charUtf8Bytes c, b < 256 := by
  have h := char_toNat_lt_uniCount c
  intro b hb
  simp only [charUtf8Bytes] at hb
  by_cases h1 : c.toNat < 0x80
  · simp [h1] at hb
    omega
  · by_cases h2 : c.toNat < 0x800
    · simp [h1, h2] at hb
      omega
    · by_cases h3 : c.toNat < 0x10000
      · simp [h1, h2, h3] at hb
        have : c.toNat / 0x1000 < 16 := by omega
        rcases hb with rfl | rfl | rfl <;> omega
      · simp [h1, h2, h3] at hb
        have : c.toNat / 0x40000 < 5 := by omega
        rcases hb with rfl | rfl | rfl | rfl <;> omega

theorem strBytes_lt (s : String) : ∀ b ∈ strBytes s, b < 256 := by
  intro b hb
  simp only [strBytes, List.mem_flatten, List.mem_map] at hb
  obtain ⟨l, ⟨c, _, rfl⟩, hbl⟩ := hb
  exact charUtf8Bytes_lt c b hbl

theorem u64FromBeBytes_append (l : List Nat) (b : Nat) :
    u64FromBeBytes (l ++ [b]) = u64FromBeBytes l * 256 + b := by
  simp [u64FromBeBytes, List.foldl_append]

/-- Reading big-endian bytes and writing them back at the same width is the
identity when every byte is below 256. -/
theorem natToBeBytes_u64FromBeBytes (l : List Nat) (hlt : ∀ b ∈ l, b < 256) :
    natToBeBytes l.length (u64FromBeBytes l) = l := by
  induction l using List.reverseRecOn with
  | nil => simp [u64FromBeBytes, natToBeBytes]
  | append_singleton xs x ih =>
    have hx : x < 256 := hlt x (by simp)
    have hxs : ∀ b ∈ xs, b < 256 := fun b hb => hlt b (by simp [hb])
    rw [u64FromBeBytes_append]
    have hlen : (xs ++ [x]).length = xs.length + 1 := by simp
    rw [hlen]
    show natToBeBytes xs.length ((u64FromBeBytes xs * 256 + x) / 256) ++
      [(u64FromBeBytes xs * 256 + x) % 256] = xs ++ [x]
    have hdiv : (u64FromBeBytes xs * 256 + x) / 256 = u64FromBeBytes xs := by omega
    have hmod : (u64FromBeBytes xs * 256 + x) % 256 = x := by omega
    rw [hdiv, hmod, ih hxs]

theorem u64FromBeBytes_lt (l : List Nat) (hlt : ∀ b ∈ l, b < 256) :
    u64FromBeBytes l < 256 ^ l.length := by
  induction l using List.reverseRecOn with
  | nil => simp [u64FromBeBytes]
  | append_singleton xs x ih =>
    have hx : x < 256 := hlt x (by simp)
    have hxs : ∀ b ∈ xs, b < 256 := fun b hb => hlt b (by simp [hb])
    rw [u64FromBeBytes_append]
    have hbound := ih hxs
    have : u64FromBeBytes xs * 256 + x < 256 ^ xs.length * 256 := by nlinarith
    simpa [pow_succ] using this

/-! ## Amount resolution (`src/commands/transfer.rs`) -/

/-- Modelled from the spec: the ledger amount type `ICPTs` of
`lib/nns_types/icpts.rs` is not under `src/`; per the spec it is a u64 count
of fractional units (e8s), with 1 whole ICP = 10^8 e8s. -/
structure ICPTs where
  e8s : Nat
deriving DecidableEq, Repr

/-- Modelled from the spec: `ICPTs::from_e8s` wraps a u64 e8s count. -/
def icpts_from_e8s (e8s : Nat) : ICPTs :=
  ⟨e8s⟩

/-- Modelled from the spec: `ICPTs::from_icpts` converts whole ICPs to e8s
(times 10^8), failing on u64 overflow. -/
def icpts_from_icpts (icpts : Nat) : Except String ICPTs :=
  if icpts * 100000000 < 2 ^ 64 then .ok ⟨icpts * 100000000⟩
  else .error "Amount too large."

/-- Modelled from the spec: checked u64 addition of two `ICPTs` values
(the `Add` used by `icp + icp_from_e8s` in `get_icpts_from_args`). -/
def icpts_add (a b : ICPTs) : Except String ICPTs :=
  if a.e8s + b.e8s < 2 ^ 64 then .ok ⟨a.e8s + b.e8s⟩
  else .error "Amount too large."

/-- Parse of a non-empty all-digit character sequence as a decimal number
(kernel-reducible replacement for the standard string-to-number parse). -/
def parseNatChars (cs : List Char) : Option Nat :=
  if cs.isEmpty then none
  else
    cs.foldl
      (fun acc c =>
        match acc with
        | some a => if 48 ≤ c.toNat ∧ c.toNat ≤ 57 then some (a * 10 + (c.toNat - 48)) else none
        | none => none)
      (some 0)

/-- Splitting a character list at a separator character, keeping empty
segments (the behavior of string `splitOn` with a one-character pattern). -/
def splitOnChar (sep : Char) (l : List Char) : List (List Char) :=
  l.foldr
    (fun c acc =>
      match acc with
      | [] => [[c]]
      | h :: t => if c = sep then [] :: h :: t else (c :: h) :: t)
    [[]]

/-- Rust `str::parse::<u64>`: decimal digits, value below 2^64. -/
def parseU64 (s : String) : Option Nat :=
  match parseNatChars s.data with
  | some n => if n < 2 ^ 64 then some n else none
  | none => none

/-- Modelled from the spec: `ICPTs::from_str` parses a decimal amount string
with a fractional portion of up to 8 decimal places (e.g. `100.012`). -/
def icpts_from_str (s : String) : Except String ICPTs :=
  match splitOnChar '.' s.data with
  | [whole] =>
    match parseNatChars whole with
    | some i => icpts_from_icpts i
    | none => .error ("Cannot parse amount " ++ s)
  | [whole, frac] =>
    match parseNatChars whole, parseNatChars frac with
    | some i, some f =>
      if frac.length ≤ 8 then
        if i * 100000000 + f * 10 ^ (8 - frac.length) < 2 ^ 64 then
          .ok ⟨i * 100000000 + f * 10 ^ (8 - frac.length)⟩
        else .error "Amount too large."
      else .error "Can only specify at most 8 decimal digits."
    | _, _ => .error ("Cannot parse amount " ++ s)
  | _ => .error ("Cannot parse amount " ++ s)

/-- Embeds `e8s_validator`: accepts exactly the strings parsing as u64. -/
def e8s_validator (e8s : String) : Except String Unit :=
  if (parseU64 e8s).isSome then .ok ()
  else .error "Must specify a non negative whole number."

/-- Embeds `memo_validator`: accepts exactly the strings parsing as u64. -/
def memo_validator (memo : String) : Except String Unit :=
  if (parseU64 memo).isSome then .ok ()
  else .error "Must specify a non negative whole number."

/-- Embeds `get_icpts_from_args` from `src/commands/transfer.rs`. The
`parse::<u64>().unwrap()` calls (guaranteed by the clap validators) are
embedded as errors on the unreachable panic path. -/
def get_icpts_from_args (amount icp e8s : Option String) : Except String ICPTs :=
  if amount.isNone then
    match
      ((match icp with
      | some s =>
        match parseU64 s with
        | some icps => icpts_from_icpts icps
        | none => .error "panicked: icp is not a valid u64"
      | none => .ok (icpts_from_e8s 0)) : Except String ICPTs) with
    | .error e => .error e
    | .ok icpVal =>
      match
        ((match e8s with
        | some s =>
          match parseU64 s with
          | some n => .ok (icpts_from_e8s n)
          | none => .error "panicked: e8s is not a valid u64"
        | none => .ok (icpts_from_e8s 0)) : Except String ICPTs) with
      | .error e => .error e
      | .ok icp_from_e8s => icpts_add icpVal icp_from_e8s
  else
    match icpts_from_str amount.get! with
    | .ok v => .ok v
    | .error e => .error ("Could not add ICPs and e8s: " ++ e)

/-- Embeds the clap `conflicts_with` declarations on `TransferOpts`:
both `--icp` and `--e8s` declare a conflict with `--amount`, so a command
line passing `--amount` together with either is rejected during argument
parsing, before `exec` calls `get_icpts_from_args`. -/
def transfer_opts_conflict (amount icp e8s : Option String) : Bool :=
  (amount.isSome && icp.isSome) || (amount.isSome && e8s.isSome)

/-- Amount resolution for `transfer` as a pipeline: the clap conflict check
of `TransferOpts` followed by `get_icpts_from_args`. -/
def resolve_transfer_amount (amount icp e8s : Option String) : Except String ICPTs :=
  if transfer_opts_conflict amount icp e8s then
    .error "The argument --amount cannot be used with --icp or --e8s"
  else
    get_icpts_from_args amount icp e8s

/-! ## Envelope timing in `sign::exec` -/

/-- Modelled from the spec: a parsed expire-after duration. The spec's
duration forms (`5m`, `1h`, `1h 30m`, seconds by default unit `s`) are all
whole numbers of seconds, so the external humanize_rs parse result is
embedded as a whole-second count. -/
structure RsDuration where
  secs : Nat
deriving DecidableEq, Repr

/-- Modelled from the spec: one token of an expire-after string, a decimal
number with unit suffix `s`, `m` or `h`, giving a number of seconds. -/
def duration_parse_token (t : List Char) : Option Nat :=
  match t.getLast? with
  | some c =>
    if c = 's' then parseNatChars t.dropLast
    else if c = 'm' then (parseNatChars t.dropLast).map (fun n => n * 60)
    else if c = 'h' then (parseNatChars t.dropLast).map (fun n => n * 3600)
    else none
  | none => none

/-- Modelled from the spec: the external humanize_rs duration parser over
the spec's expire-after forms — space-separated tokens summed together,
bounded by the parser's u64 nanosecond arithmetic. -/
def duration_parse (s : String) : Except String RsDuration :=
  let toks := (splitOnChar ' ' s.data).filter (fun t => !t.isEmpty)
  if toks.isEmpty then .error "empty duration"
  else
    match toks.mapM duration_parse_token with
    | some vals =>
      if vals.sum * 1000000000 < 2 ^ 64 then .ok ⟨vals.sum⟩
      else .error "duration overflow"
    | none => .error "invalid duration"

/-- Maximum UTC timestamp in seconds representable by the chrono datetime
type; the exact constant embeds the external library's documented bound. -/
def chronoMaxTimestamp : Int := 8210266876799

/-- Minimum representable chrono UTC timestamp in seconds. -/
def chronoMinTimestamp : Int := -8334632851200

/-- Embeds chrono's `checked_add_signed` on UTC timestamps (seconds):
the sum, unless it leaves the representable range. -/
def chrono_checked_add_signed (t d : Int) : Option Int :=
  if chronoMinTimestamp ≤ t + d ∧ t + d ≤ chronoMaxTimestamp then some (t + d)
  else none

/-- Embeds `SystemTime::checked_add`: system time as u64 seconds since the
epoch, failing when the addition leaves the u64 range. -/
def system_time_checked_add (now : Nat) (d : RsDuration) : Option Nat :=
  if now + d.secs < 2 ^ 64 then some (now + d.secs) else none

/-- Embeds Rust's `as i64` cast of a u64 (`timeout.as_secs() as i64`). -/
def u64_as_i64 (n : Nat) : Int :=
  if n < 2 ^ 63 then (n : Int) else (n : Int) - 2 ^ 64

/-- Creation and expiration timestamps of the signed message template. -/
structure SignTiming where
  creation : Int
  expiration : Int
deriving DecidableEq, Repr

/-- Embeds the timing fragment of `sign::exec`: parse `expire_after`,
check the system-time addition (`Time wrapped around.`), then compute
`creation = Utc::now()` and
`expiration = creation.checked_add_signed(Duration::seconds(timeout.as_secs() as i64))`,
failing with `Expiration datetime overflow.` when chrono overflows.
`now_sys` is the u64 system clock and `now_utc` the chrono clock, both in
seconds. -/
def sign_timing (expire_after : String) (now_sys : Nat) (now_utc : Int) :
    Except String SignTiming :=
  match duration_parse expire_after with
  | .error _ => .error "Cannot parse expire_after as a duration (e.g. `1h`, `1h 30m`)"
  | .ok timeout =>
    match system_time_checked_add now_sys timeout with
    | none => .error "Time wrapped around."
    | some _expiration_system_time =>
      let chorono_timeout : Int := u64_as_i64 timeout.secs
      let creation := now_utc
      match chrono_checked_add_signed creation chorono_timeout with
      | some expiration => .ok ⟨creation, expiration⟩
      | none => .error "Expiration datetime overflow."

/-! ## Identity loading (`src/lib/identity.rs`) -/

/-- An identity wraps one of the two supported key schemes (the
`Box<dyn ic_agent::Identity>` in the source holds either a
`Secp256k1Identity` or a `BasicIdentity`); the schemes' key types are
parameters since the PEM parsers are external collaborators. -/
inductive IdentityInner (σ β : Type) where
  | secp256k1 (key : σ)
  | basic (key : β)
deriving DecidableEq, Repr

/-- Embeds `Identity::load_secp256k1_identity`:
`Secp256k1Identity::from_pem(...).ok()?`. -/
def load_secp256k1_identity {σ β : Type} (fromPemSecp : String → Option σ)
    (pem : String) : Option (IdentityInner σ β) :=
  (fromPemSecp pem).map .secp256k1

/-- Embeds `Identity::load_basic_identity`:
`BasicIdentity::from_pem(...).ok()?`. -/
def load_basic_identity {σ β : Type} (fromPemBasic : String → Option β)
    (pem : String) : Option (IdentityInner σ β) :=
  (fromPemBasic pem).map .basic

/-- Embeds `Identity::load`: try the secp256k1 scheme, `or_else` the basic
scheme, and `expect` (embedded as an error) when neither parses. -/
def identity_load {σ β : Type} (fromPemSecp : String → Option σ)
    (fromPemBasic : String → Option β) (pem : String) :
    Except String (IdentityInner σ β) :=
  match (load_secp256k1_identity fromPemSecp pem).orElse
      (fun _ => load_basic_identity fromPemBasic pem) with
  | some i => .ok i
  | none => .error "Couldn't load identity from file"

/-! ## Sample collaborators used by witnesses -/

/-- A concrete decoded `CanisterInstall` record used by witnesses. -/
def sampleInstallArgs : CanisterInstall :=
  ⟨.install, [1, 2, 3], [], []⟩

/-- Concrete Candid decoders used by witnesses: each decoder succeeds and
returns a fixed record. -/
def sampleDecoders : CandidDecoders :=
  ⟨fun _ => .ok sampleInstallArgs,
   fun _ => .ok ⟨[4, 5], ⟨none, none, none, none⟩⟩,
   fun _ => .ok ⟨[6, 7]⟩⟩

/-- A constant 32-byte digest function standing in for SHA-256 in witnesses
(the theorems only assume the digest is 32 bytes long). -/
def constSha256 : List Nat → List Nat :=
  fun _ => List.replicate 32 0

/-! ## Claims -/

/-- C1: for every management-canister call whose method is install-code-like
(`install_code`), settings-update (`update_settings`), or a lifecycle method
(start/stop/status/delete/deposit-cycles/uninstall/top-up),
`get_effective_canister_id` returns the `canister_id` field of the record
decoded from the Candid argument; for every call whose target is not the
management canister it returns the literal target canister id unchanged, for
all decoders and all arguments — hence without decoding the argument. -/
theorem C1_effective_target_resolution (cd : CandidDecoders) (arg : List Nat)
    (cid : Principal') :
    (∀ r, cd.decodeCanisterInstall arg = .ok r →
      get_effective_canister_id cd true "install_code" arg cid = .ok r.canister_id) ∧
    (∀ r, cd.decodeUpdateSettingsIn arg = .ok r →
      get_effective_canister_id cd true "update_settings" arg cid = .ok r.canister_id) ∧
    (∀ m, m ∈ ["start_canister", "stop_canister", "canister_status", "delete_canister",
        "deposit_cycles", "uninstall_code", "provisional_top_up_canister"] →
      ∀ r, cd.decodeCanisterIdIn arg = .ok r →
        get_effective_canister_id cd true m arg cid = .ok r.canister_id) ∧
    (∀ m : String, cid ≠ managementCanisterPrincipal →
      get_effective_canister_id cd (decide (cid = managementCanisterPrincipal)) m arg cid =
        .ok cid) := by
  refine ⟨?_, ?_, ?_, ?_⟩
  · intro r hr
    simp [get_effective_canister_id, MgmtMethod.fromStr, hr]
  · intro r hr
    simp [get_effective_canister_id, MgmtMethod.fromStr, hr]
  · intro m hm r hr
    have hms : m = "start_canister" ∨ m = "stop_canister" ∨ m = "canister_status" ∨
        m = "delete_canister" ∨ m = "deposit_cycles" ∨ m = "uninstall_code" ∨
        m = "provisional_top_up_canister" := by simpa using hm
    rcases hms with rfl | rfl | rfl | rfl | rfl | rfl | rfl <;>
      simp [get_effective_canister_id, MgmtMethod.fromStr, hr]
  · intro m hne
    have hd : decide (cid = managementCanisterPrincipal) = false := decide_eq_false hne
    simp [get_effective_canister_id, hd]

/-- Witness for C1: the sample decoders at concrete method names, plus a
concrete non-management target. -/
theorem C1_witness :
    get_effective_canister_id sampleDecoders true "install_code" [0] [9] = .ok [1, 2, 3] ∧
    get_effective_canister_id sampleDecoders true "update_settings" [0] [9] = .ok [4, 5] ∧
    get_effective_canister_id sampleDecoders true "stop_canister" [0] [9] = .ok [6, 7] ∧
    get_effective_canister_id sampleDecoders
      (decide (([9] : Principal') = managementCanisterPrincipal)) "greet" [0] [9] = .ok [9] := by
  refine ⟨?_, ?_, ?_, ?_⟩
  · exact (C1_effective_target_resolution sampleDecoders [0] [9]).1 sampleInstallArgs rfl
  · exact (C1_effective_target_resolution sampleDecoders [0] [9]).2.1 ⟨[4, 5], ⟨none, none, none, none⟩⟩ rfl
  · exact (C1_effective_target_resolution sampleDecoders [0] [9]).2.2.1 "stop_canister" (by simp) ⟨[6, 7]⟩ rfl
  · exact (C1_effective_target_resolution sampleDecoders [0] [9]).2.2.2 "greet" (by decide)

/-- C2: the query/update decision of `sign::exec` — a statically known query
method yields a query unless the update flag is set; a statically known
update method with the query flag set fails with the method-kind-mismatch
error; an unknown kind follows the caller's query flag, defaulting to update
when unset. -/
theorem C2_query_update_decision (method_name : String) (q u : Bool) :
    sign_is_query method_name (some true) q u = .ok (!u) ∧
    sign_is_query method_name (some false) true u =
      .error ("Invalid method call: " ++ method_name ++ " is not a query method.") ∧
    sign_is_query method_name (some false) false u = .ok false ∧
    sign_is_query method_name none q u = .ok q :=
  ⟨rfl, rfl, rfl, rfl⟩

/-- C5: on the management canister, the zero-argument `create_canister`
method fails with the error that it is only meaningful in an inter-canister
call, while `provisional_create_canister_with_cycles` succeeds and returns
the management canister's own principal. -/
theorem C5_create_canister_policy (cd : CandidDecoders) (arg : List Nat) (cid : Principal') :
    get_effective_canister_id cd true "create_canister" arg cid =
      .error (mgmtInterCanisterOnlyMsg "create_canister") ∧
    get_effective_canister_id cd true "provisional_create_canister_with_cycles" arg cid =
      .ok managementCanisterPrincipal :=
  ⟨rfl, rfl⟩

/-- C10: a management-canister call on `raw_rand` is rejected with the same
inter-canister-only error template as the zero-argument `create_canister`
method, instantiated at its own method name. -/
theorem C10_raw_rand_rejected (cd : CandidDecoders) (arg : List Nat) (cid : Principal') :
    get_effective_canister_id cd true "raw_rand" arg cid =
      .error (mgmtInterCanisterOnlyMsg "raw_rand") ∧
    get_effective_canister_id cd true "create_canister" arg cid =
      .error (mgmtInterCanisterOnlyMsg "create_canister") :=
  ⟨rfl, rfl⟩

/-- C3: for every principal and name of at most 8 bytes, the staking
subaccount is the 32-byte SHA-256 digest of the domain-tag byte 0x0c, the
ASCII bytes of "neuron-stake", the principal's bytes, and the 8-byte
big-endian nonce obtained by left-zero-padding the name's bytes; repeated
derivations from the same name and principal agree. -/
theorem C3_staking_subaccount (sha256 : List Nat → List Nat) (p : Principal')
    (name : String) (hlen : (strBytes name).length ≤ 8)
    (hsha : ∀ l, (sha256 l).length = 32) :
    ∃ nonce,
      convert_name_to_memo name = some nonce ∧
      get_neuron_subaccount sha256 p nonce =
        sha256 ([0x0c] ++ strBytes "neuron-stake" ++ p ++
          (List.replicate (8 - (strBytes name).length) 0 ++ strBytes name)) ∧
      (get_neuron_subaccount sha256 p nonce).length = 32 ∧
      (∀ nonce2, convert_name_to_memo name = some nonce2 →
        get_neuron_subaccount sha256 p nonce2 = get_neuron_subaccount sha256 p nonce) := by
  have hplen : (List.replicate (8 - (strBytes name).length) 0 ++ strBytes name).length = 8 := by
    simp
    omega
  have hmemo : convert_name_to_memo name =
      some (u64FromBeBytes (List.replicate (8 - (strBytes name).length) 0 ++ strBytes name)) := by
    simp only [convert_name_to_memo]
    rw [if_pos hplen]
  refine ⟨_, hmemo, ?_, hsha _, ?_⟩
  · have hlt : ∀ b ∈ List.replicate (8 - (strBytes name).length) 0 ++ strBytes name, b < 256 := by
      intro b hb
      rcases List.mem_append.mp hb with h | h
      · have := List.eq_of_mem_replicate h
        omega
      · exact strBytes_lt name b h
    have hround := natToBeBytes_u64FromBeBytes _ hlt
    rw [hplen] at hround
    rw [get_neuron_subaccount, hround]
  · intro nonce2 h2
    rw [hmemo] at h2
    injection h2 with h2
    rw [h2]

/-- Witness for C3: the name "abc" (3 bytes), a one-byte principal, and a
constant 32-byte digest function. -/
theorem C3_witness :
    (strBytes "abc").length ≤ 8 ∧
    (∀ l, (constSha256 l).length = 32) ∧
    ∃ nonce,
      convert_name_to_memo "abc" = some nonce ∧
      get_neuron_subaccount constSha256 [42] nonce =
        constSha256 ([0x0c] ++ strBytes "neuron-stake" ++ [42] ++
          (List.replicate (8 - (strBytes "abc").length) 0 ++ strBytes "abc")) ∧
      (get_neuron_subaccount constSha256 [42] nonce).length = 32 ∧
      (∀ nonce2, convert_name_to_memo "abc" = some nonce2 →
        get_neuron_subaccount constSha256 [42] nonce2 =
          get_neuron_subaccount constSha256 [42] nonce) :=
  ⟨by decide, fun l => by simp [constSha256],
    C3_staking_subaccount constSha256 [42] "abc" (by decide) (fun l => by simp [constSha256])⟩

/-- C8: a neuron name longer than 8 bytes fails validation with the
name-too-long error (and the nonce conversion itself cannot be carried out),
while a name of at most 8 bytes passes validation and its nonce conversion
succeeds. -/
theorem C8_neuron_name_length (name : String) :
    ((strBytes name).length > 8 →
      neuron_name_validator name = .error "The neuron name must be 8 character or less" ∧
      convert_name_to_memo name = none) ∧
    ((strBytes name).length ≤ 8 →
      neuron_name_validator name = .ok () ∧
      ∃ m, convert_name_to_memo name = some m) := by
  constructor
  · intro h
    constructor
    · simp only [neuron_name_validator]
      rw [if_pos h]
    · simp only [convert_name_to_memo]
      rw [if_neg]
      simp
      omega
  · intro h
    constructor
    · simp only [neuron_name_validator]
      rw [if_neg (by omega)]
    · refine ⟨u64FromBeBytes (List.replicate (8 - (strBytes name).length) 0 ++ strBytes name), ?_⟩
      simp only [convert_name_to_memo]
      rw [if_pos (by simp; omega)]

/-- Witness for C8: the 9-byte name "123456789" is rejected and the 3-byte
name "abc" is accepted. -/
theorem C8_witness :
    (strBytes "123456789").length > 8 ∧
    neuron_name_validator "123456789" = .error "The neuron name must be 8 character or less" ∧
    convert_name_to_memo "123456789" = none ∧
    (strBytes "abc").length ≤ 8 ∧
    neuron_name_validator "abc" = .ok () ∧
    ∃ m, convert_name_to_memo "abc" = some m := by
  refine ⟨by decide, ?_, ?_, by decide, ?_, ?_⟩
  · exact ((C8_neuron_name_length "123456789").1 (by decide)).1
  · exact ((C8_neuron_name_length "123456789").1 (by decide)).2
  · exact ((C8_neuron_name_length "abc").2 (by decide)).1
  · exact ((C8_neuron_name_length "abc").2 (by decide)).2

/-- C4: whenever the amount option is given together with the icp option or
the e8s option, amount resolution for `transfer` fails with the
option-conflict (ambiguous amount) error instead of producing a value. -/
theorem C4_ambiguous_amount (amount icp e8s : Option String)
    (ha : amount.isSome = true) (hb : icp.isSome = true ∨ e8s.isSome = true) :
    resolve_transfer_amount amount icp e8s =
      .error "The argument --amount cannot be used with --icp or --e8s" := by
  rcases hb with hb | hb <;>
    simp [resolve_transfer_amount, transfer_opts_conflict, ha, hb]

/-- Witness for C4: amount 1.5 combined with icp 1 is rejected. -/
theorem C4_witness :
    (some "1.5" : Option String).isSome = true ∧
    (some "1" : Option String).isSome = true ∧
    resolve_transfer_amount (some "1.5") (some "1") none =
      .error "The argument --amount cannot be used with --icp or --e8s" :=
  ⟨rfl, rfl, C4_ambiguous_amount (some "1.5") (some "1") none rfl (Or.inl rfl)⟩

set_option maxRecDepth 4096 in
/-- C7: amount resolution is additive — icp 1 together with e8s 50000000
resolves to the same ICPTs value (150000000 e8s) as the single decimal
amount string 1.5. -/
theorem C7_additive_amount_resolution :
    get_icpts_from_args none (some "1") (some "50000000") = .ok ⟨150000000⟩ ∧
    get_icpts_from_args (some "1.5") none none = .ok ⟨150000000⟩ := by
  constructor <;> decide

/-- Duration strings accepted by the parser stay within the parser's u64
nanosecond arithmetic, so their second count fits an i64. -/
theorem duration_parse_secs_bound (s : String) (d : RsDuration)
    (h : duration_parse s = .ok d) : d.secs * 1000000000 < 2 ^ 64 := by
  unfold duration_parse at h
  by_cases he : ((splitOnChar ' ' s.data).filter (fun t => !t.isEmpty)).isEmpty
  · rw [if_pos he] at h
    simp at h
  · rw [if_neg he] at h
    cases hm : ((splitOnChar ' ' s.data).filter (fun t => !t.isEmpty)).mapM
        duration_parse_token with
    | none =>
      rw [hm] at h
      simp at h
    | some vals =>
      simp only [hm] at h
      split at h
      · rename_i hb
        have h2 := Except.ok.inj h
        rw [← h2]
        exact hb
      · simp at h

/-- C6: whenever `sign::exec`'s timing succeeds, the expiration timestamp is
the creation timestamp plus the parsed expire-after duration; for
expire-after 5m the difference is exactly 300 seconds; and when the addition
overflows the representable datetime range, sign fails with the
datetime-overflow error. -/
theorem C6_expiration_timing :
    (∀ s d now_sys now_utc t,
      duration_parse s = .ok d →
      sign_timing s now_sys now_utc = .ok t →
      t.creation = now_utc ∧ t.expiration = t.creation + d.secs) ∧
    (∀ now_sys now_utc,
      now_sys + 300 < 2 ^ 64 →
      chronoMinTimestamp ≤ now_utc + 300 →
      now_utc + 300 ≤ chronoMaxTimestamp →
      sign_timing "5m" now_sys now_utc = .ok ⟨now_utc, now_utc + 300⟩) ∧
    (∀ s d now_sys now_utc,
      duration_parse s = .ok d →
      now_sys + d.secs < 2 ^ 64 →
      chronoMaxTimestamp < now_utc + d.secs →
      sign_timing s now_sys now_utc = .error "Expiration datetime overflow.") := by
  refine ⟨?_, ?_, ?_⟩
  · intro s d now_sys now_utc t hparse hok
    have hbound := duration_parse_secs_bound s d hparse
    have hcast : u64_as_i64 d.secs = (d.secs : Int) := by
      rw [u64_as_i64, if_pos (by omega)]
    simp only [sign_timing, hparse] at hok
    cases hsysv : system_time_checked_add now_sys d with
    | none =>
      rw [hsysv] at hok
      exact absurd hok (by simp)
    | some est =>
      rw [hsysv] at hok
      cases hchr : chrono_checked_add_signed now_utc (u64_as_i64 d.secs) with
      | none =>
        rw [hchr] at hok
        exact absurd hok (by simp)
      | some exp =>
        rw [hchr] at hok
        have hokv := Except.ok.inj hok
        subst hokv
        have hexp : exp = now_utc + (d.secs : Int) := by
          rw [chrono_checked_add_signed, hcast] at hchr
          split at hchr
          · have h := Option.some.inj hchr
            omega
          · cases hchr
        exact ⟨rfl, hexp⟩
  · intro now_sys now_utc hsys hlo hhi
    have hparse : duration_parse "5m" = .ok ⟨300⟩ := by decide
    have h1 : system_time_checked_add now_sys ⟨300⟩ = some (now_sys + 300) := by
      simp only [system_time_checked_add]
      rw [if_pos]
      omega
    have hcast : u64_as_i64 300 = (300 : Int) := by decide
    have h2 : chrono_checked_add_signed now_utc 300 = some (now_utc + 300) := by
      rw [chrono_checked_add_signed, if_pos ⟨hlo, hhi⟩]
    simp only [sign_timing, hparse, h1, hcast, h2]
  · intro s d now_sys now_utc hparse hsys hover
    have hbound := duration_parse_secs_bound s d hparse
    have hcast : u64_as_i64 d.secs = (d.secs : Int) := by
      rw [u64_as_i64, if_pos (by omega)]
    have h1 : system_time_checked_add now_sys d = some (now_sys + d.secs) := by
      rw [system_time_checked_add, if_pos (by omega)]
    have h2 : chrono_checked_add_signed now_utc (d.secs : Int) = none := by
      rw [chrono_checked_add_signed, if_neg (by omega)]
    simp only [sign_timing, hparse, h1, hcast, h2]

/-- Witness for C6: at clock zero a five-minute expiry gives expiration 300;
at the maximum representable timestamp the same expiry overflows. -/
theorem C6_witness :
    duration_parse "5m" = .ok ⟨300⟩ ∧
    sign_timing "5m" 0 0 = .ok ⟨0, 300⟩ ∧
    sign_timing "5m" 0 chronoMaxTimestamp = .error "Expiration datetime overflow." := by
  refine ⟨by decide, ?_, ?_⟩
  · have h := C6_expiration_timing.2.1 0 0 (by decide) (by decide) (by decide)
    simpa using h
  · exact C6_expiration_timing.2.2 "5m" ⟨300⟩ 0 chronoMaxTimestamp (by decide) (by decide)
      (by decide)

/-- C9: identity loading tries the secp256k1 scheme first, falls back to the
basic (Ed25519) scheme only when secp256k1 parsing fails, and fails with the
corrupt-key-material error when neither scheme parses the input. -/
theorem C9_identity_load_order {σ β : Type} (fromPemSecp : String → Option σ)
    (fromPemBasic : String → Option β) (pem : String) :
    (∀ k, fromPemSecp pem = some k →
      identity_load fromPemSecp fromPemBasic pem = .ok (.secp256k1 k)) ∧
    (fromPemSecp pem = none → ∀ k, fromPemBasic pem = some k →
      identity_load fromPemSecp fromPemBasic pem = .ok (.basic k)) ∧
    (fromPemSecp pem = none → fromPemBasic pem = none →
      identity_load fromPemSecp fromPemBasic pem =
        .error "Couldn't load identity from file") := by
  refine ⟨?_, ?_, ?_⟩
  · intro k hk
    simp [identity_load, load_secp256k1_identity, load_basic_identity, Option.orElse, hk]
  · intro hs k hk
    simp [identity_load, load_secp256k1_identity, load_basic_identity, Option.orElse, hs, hk]
  · intro hs hb
    simp [identity_load, load_secp256k1_identity, load_basic_identity, Option.orElse, hs, hb]

/-- Witness for C9: concrete parsers over `Nat` key material — when both
schemes parse, secp256k1 wins; when only basic parses, basic is used; when
neither parses, loading fails. -/
theorem C9_witness :
    identity_load (fun _ => some 1) (fun _ => some 2) "pem" =
      (.ok (.secp256k1 1) : Except String (IdentityInner Nat Nat)) ∧
    identity_load (fun _ => (none : Option Nat)) (fun _ => some 2) "pem" =
      (.ok (.basic 2) : Except String (IdentityInner Nat Nat)) ∧
    identity_load (fun _ => (none : Option Nat)) (fun _ => (none : Option Nat)) "pem" =
      (.error "Couldn't load identity from file" : Except String (IdentityInner Nat Nat)) :=
  ⟨(C9_identity_load_order (fun _ => some 1) (fun _ => some 2) "pem").1 1 rfl,
   (C9_identity_load_order (fun _ => (none : Option Nat)) (fun _ => some 2) "pem").2.1 rfl 2 rfl,
   (C9_identity_load_order (fun _ => (none : Option Nat)) (fun _ => (none : Option Nat))
      "pem").2.2 rfl rfl⟩
